import Mathlib

/-!
Verification of the dry-run / paper trading portfolio layer of the repository.

The embedding follows the Python source:
* `src/agents/utils/portfolio.py` (`PortfolioManager`): `applyTrade`,
  `closePosition`, `markToMarket`, `load`, `save`;
* `src/agents/application/paper_trader.py` (`PaperTrader._execute_trade`):
  `paperExecute` with the random fill fraction and pseudo-exit price walk
  made explicit parameters;
* `src/agents/application/dry_run_trader.py` (`DryRunTrader.maintain_positions`):
  `tickStep`, with the simulated current price an explicit parameter.

Python floats are modelled as rationals (ℚ), so the arithmetic identities are
exact.  `datetime.now().strftime` timestamps are modelled as opaque strings
supplied per call: the position id in the source is the string
`pos_%Y%m%d_%H%M%S`, second resolution, so two calls in the same second
receive the same string.
-/

namespace Agents

/-- Python's `str.upper()` on the ASCII side strings used by the traders
(structural recursion over the characters, so the kernel can evaluate it). -/
def pyUpper (s : String) : String :=
  ⟨s.data.map Char.toUpper⟩

/-- A trade intent dict as consumed by `PortfolioManager.apply_trade` and
`PaperTrader._execute_trade` (`side`, `price`, `size`, and for the paper path
the precomputed intended `notional`). -/
structure Trade where
  side : String
  price : ℚ
  size : ℚ
  notional : ℚ := 0
  event_title : String := "Unknown"
  market_question : String := "Unknown"
  deriving Repr, DecidableEq

/-- An open position dict as built in `PortfolioManager.apply_trade`
(portfolio.py lines 83–93).  `opened_at` is dropped: no claim mentions it. -/
structure Position where
  id : String
  event_title : String
  market_question : String
  side : String
  entry_price : ℚ
  size_fraction : ℚ
  notional : ℚ
  qty : ℚ
  deriving Repr, DecidableEq

/-- The mutable state of a `PortfolioManager`: `current_balance` and the
`positions` list (storage path and `last_updated` carry no claim content). -/
structure PState where
  current_balance : ℚ
  positions : List Position
  deriving Repr, DecidableEq

/-- `PortfolioManager.apply_trade` (portfolio.py lines 49–95).  `ts` is the
`datetime.now().strftime("%Y%m%d_%H%M%S")` string of the call.  Returns the
state unchanged when `size ≤ 0` or the upper-cased side is neither `BUY` nor
`SELL`; otherwise debits `clamp(size) * balance` and appends the position. -/
def applyTrade (ts : String) (t : Trade) (s : PState) : PState :=
  let side := pyUpper t.side
  let price := t.price
  let size_fraction := t.size
  if size_fraction ≤ 0 then s
  else
    let notional := max 0 (min 1 size_fraction) * s.current_balance
    if side = "BUY" then
      { current_balance := s.current_balance - notional,
        positions := s.positions ++
          [{ id := "pos_" ++ ts, event_title := t.event_title,
             market_question := t.market_question, side := side,
             entry_price := price, size_fraction := size_fraction,
             notional := notional, qty := notional / max price (1/100) }] }
    else if side = "SELL" then
      { current_balance := s.current_balance - notional,
        positions := s.positions ++
          [{ id := "pos_" ++ ts, event_title := t.event_title,
             market_question := t.market_question, side := side,
             entry_price := price, size_fraction := size_fraction,
             notional := notional, qty := notional / max (1 - price) (1/100) }] }
    else s

/-- The directional change used both by `close_position` (portfolio.py lines
135–138) and `mark_to_market` (lines 116–119): `exit − entry` for BUY,
`(1 − exit) − (1 − entry)` for every other side. -/
def closeChange (side : String) (entry exit_price : ℚ) : ℚ :=
  if side = "BUY" then exit_price - entry else (1 - exit_price) - (1 - entry)

/-- The result dict returned by `PortfolioManager.close_position`
(portfolio.py lines 142–150), without the `closed_at` timestamp. -/
structure CloseResult where
  position_id : String
  side : String
  entry_price : ℚ
  exit_price : ℚ
  notional : ℚ
  realized_pnl : ℚ
  deriving Repr, DecidableEq

/-- The scan of `close_position` (portfolio.py lines 129–155): find the first
position whose id matches, build its close result, and delete it from the
list; `none` when no position matches. -/
def closeFirst (pid : String) (exit_price : ℚ) :
    List Position → Option (CloseResult × List Position)
  | [] => none
  | p :: rest =>
    if p.id = pid then
      some ({ position_id := pid, side := p.side, entry_price := p.entry_price,
              exit_price := exit_price, notional := p.notional,
              realized_pnl := p.notional * closeChange p.side p.entry_price exit_price },
            rest)
    else
      match closeFirst pid exit_price rest with
      | none => none
      | some (r, rest2) => some (r, p :: rest2)

/-- `PortfolioManager.close_position` (portfolio.py lines 125–155): if a
position with the id exists, credit `notional + realized_pnl` back to the
balance, remove the position and return the result; otherwise return `None`
and leave the state unchanged. -/
def closePosition (pid : String) (exit_price : ℚ) (s : PState) :
    Option CloseResult × PState :=
  match closeFirst pid exit_price s.positions with
  | none => (none, s)
  | some (r, rest) =>
    (some r,
     { current_balance := s.current_balance + r.notional + r.realized_pnl,
       positions := rest })

/-- The summary dict of `PortfolioManager.mark_to_market`
(portfolio.py lines 102–106). -/
structure MtmSummary where
  positions : Nat
  unrealized_pnl : ℚ
  balance : ℚ
  deriving Repr, DecidableEq

/-- `PortfolioManager.mark_to_market` (portfolio.py lines 97–123).  The method
only reads state, so it is embedded as a pure function of the state; with no
`current_price` (or no positions) the summary keeps `unrealized_pnl = 0.0`. -/
def markToMarket (current_price : Option ℚ) (s : PState) : MtmSummary :=
  match current_price with
  | none =>
    { positions := s.positions.length, unrealized_pnl := 0,
      balance := s.current_balance }
  | some cp =>
    if s.positions.isEmpty then
      { positions := s.positions.length, unrealized_pnl := 0,
        balance := s.current_balance }
    else
      { positions := s.positions.length,
        unrealized_pnl :=
          s.positions.foldl
            (fun acc pos => acc + pos.notional * closeChange pos.side pos.entry_price cp) 0,
        balance := s.current_balance }

/-- The persisted JSON document written by `PortfolioManager.save`
(portfolio.py lines 36–44), without the `last_updated` timestamp. -/
structure StoredDoc where
  current_balance : ℚ
  positions : List Position
  deriving Repr, DecidableEq

/-- `PortfolioManager.save`: the document persisted from a state. -/
def save (s : PState) : StoredDoc :=
  { current_balance := s.current_balance, positions := s.positions }

/-- The in-memory state built by `PortfolioManager.__init__` (portfolio.py
lines 13–19) before `load()` runs: the configured initial balance and an
empty position list. -/
def initState (initial_balance : ℚ) : PState :=
  { current_balance := initial_balance, positions := [] }

/-- The parse/convert outcome of a present persisted document, following the
statement order of the try block of `PortfolioManager.load` (portfolio.py
lines 26–31): `json.load` can raise before anything is assigned
(`unparseable`); `float(data.get("current_balance", ...))` can raise before
anything is assigned (`badBalance` — a non-numeric value, or a document that
is not a dict so that `.get` itself raises); `list(data.get("positions",
[]))` can raise after `current_balance` was already assigned the converted
value (`badPositions bal` — e.g. `"positions": null`); or every step
succeeds (`valid bal pos`, the converted values with defaults applied —
the following `last_updated` assignment cannot raise). -/
inductive LoadDoc where
  | unparseable
  | badBalance
  | badPositions (bal : ℚ)
  | valid (bal : ℚ) (pos : List Position)
  deriving Repr, DecidableEq

/-- `PortfolioManager.load` (portfolio.py lines 22–34).  The stored file is
`none` when absent.  The returned `Bool` records whether the call persisted
the state via `save()`: only the except branch does; an absent file skips
the body entirely, with no save.  On `badPositions` the except branch fires
after `current_balance` was already overwritten, so the document's balance —
not the prior one — is kept and persisted, while positions keep their prior
(at `__init__`: empty) value. -/
def load (file : Option LoadDoc) (s : PState) : PState × Bool :=
  match file with
  | none => (s, false)
  | some LoadDoc.unparseable => (s, true)
  | some LoadDoc.badBalance => (s, true)
  | some (LoadDoc.badPositions bal) =>
    ({ s with current_balance := bal }, true)
  | some (LoadDoc.valid bal pos) =>
    ({ current_balance := bal, positions := pos }, false)

/-- One portfolio operation: an open (`apply_trade` with its call timestamp)
or a close (`close_position`). -/
inductive Op where
  | openTrade (ts : String) (t : Trade)
  | close (pid : String) (exit_price : ℚ)
  deriving Repr, DecidableEq

/-- One step of an operation sequence, threading the running sum of
`realized_pnl` over the closes that actually found a position. -/
def stepOp : PState × ℚ → Op → PState × ℚ
  | (s, r), Op.openTrade ts t => (applyTrade ts t s, r)
  | (s, r), Op.close pid x =>
    match closePosition pid x s with
    | (none, s2) => (s2, r)
    | (some res, s2) => (s2, r + res.realized_pnl)

/-- Run a sequence of opens and closes from a state, accumulating realized
PnL starting from 0. -/
def runOps (s : PState) (ops : List Op) : PState × ℚ :=
  ops.foldl stepOp (s, 0)

/-- Sum of the `notional` fields of the open positions of a state. -/
def openNotional (s : PState) : ℚ :=
  (s.positions.map Position.notional).sum

/-- The execution parameters of a `PaperTrader` (paper_trader.py lines
49–52); `min_fill`/`max_fill` only feed the random fill draw, which is an
explicit argument here, so the config keeps the two cost rates. -/
structure PaperCfg where
  commission_bps : ℚ
  slippage_bps : ℚ
  deriving Repr, DecidableEq

/-- The slipped execution price of `PaperTrader._execute_trade`
(paper_trader.py lines 234–235): BUY is capped above at `0.99`, SELL is
floored below at `0.01`; no other clamping is applied on entry. -/
def execPrice (cfg : PaperCfg) (side : String) (base_price : ℚ) : ℚ :=
  let slip := cfg.slippage_bps / 10000
  if side = "BUY" then min (99/100) (base_price + slip)
  else max (1/100) (base_price - slip)

/-- The portfolio state right after the `apply_trade` call inside
`PaperTrader._execute_trade` (paper_trader.py lines 246–249): the trade is
re-submitted with `price := exec_price` and `size := size * fill_fraction`. -/
def paperOpenState (cfg : PaperCfg) (ts : String) (t : Trade)
    (fill_fraction : ℚ) (s : PState) : PState :=
  applyTrade ts
    { t with price := execPrice cfg (pyUpper t.side) t.price,
             size := t.size * fill_fraction } s

/-- The executed-trade report of `PaperTrader._execute_trade`
(paper_trader.py lines 264–278), keeping the fields the claims mention. -/
structure ExecResult where
  side : String
  entry_price : ℚ
  exit_price : ℚ
  size : ℚ
  pnl : ℚ
  price_change : ℚ
  commission_paid : ℚ
  fill_fraction : ℚ
  deriving Repr, DecidableEq

/-- The outcome dict of `PaperTrader._execute_trade`: the early-return
zero-effect report of lines 220–231 (which carries `entry_price =
exit_price = base_price` and `pnl = 0.0` and touches no portfolio state),
or the full execution report. -/
inductive ExecOutcome where
  | rejected (entry_price exit_price pnl : ℚ)
  | executed (r : ExecResult)
  deriving Repr, DecidableEq

/-- `PaperTrader._execute_trade` (paper_trader.py lines 213–279).  The two
random draws — `fill_fraction = random.uniform(min_fill, max_fill)` and the
pseudo-exit walk `price_change = random.uniform(-0.08, 0.08)` — are explicit
arguments.  A trade with `size ≤ 0`, `notional ≤ 0` or a side other than
BUY/SELL is rejected with a zero-effect report; otherwise the trade is
applied at the slipped price and scaled size, and the freshly appended last
position is immediately closed at the clamped pseudo-exit price. -/
def paperExecute (cfg : PaperCfg) (ts : String) (t : Trade)
    (fill_fraction price_change : ℚ) (s : PState) : ExecOutcome × PState :=
  let side := pyUpper t.side
  let size := t.size
  let base_price := t.price
  let notional := t.notional
  if size ≤ 0 ∨ notional ≤ 0 ∨ (side ≠ "BUY" ∧ side ≠ "SELL") then
    (ExecOutcome.rejected base_price base_price 0, s)
  else
    let exec_price := execPrice cfg side base_price
    let exec_notional := notional * fill_fraction
    let fee := exec_notional * (cfg.commission_bps / 10000)
    let s1 := paperOpenState cfg ts t fill_fraction s
    let exit_price :=
      max (1/100) (min (99/100)
        (if side = "BUY" then exec_price + price_change
         else exec_price - price_change))
    let chg := if side = "BUY" then exit_price - exec_price
               else (1 - exit_price) - (1 - exec_price)
    let pnl := exec_notional * chg - fee
    let s2 := match s1.positions.getLast? with
      | none => s1
      | some last_pos => (closePosition last_pos.id exit_price s1).2
    (ExecOutcome.executed
      { side := side, entry_price := exec_price, exit_price := exit_price,
        size := size * fill_fraction, pnl := pnl, price_change := chg,
        commission_paid := fee, fill_fraction := fill_fraction }, s2)

/-- The directional change of `DryRunTrader.maintain_positions`
(dry_run_trader.py lines 430–433): `current − entry` for BUY,
`(1 − current) − (1 − entry)` for every other side. -/
def tickChange (side : String) (entry current : ℚ) : ℚ :=
  if side = "BUY" then current - entry else (1 - current) - (1 - entry)

/-- The simulated current price of `DryRunTrader.maintain_positions`
(dry_run_trader.py line 423): the entry price plus a random walk step `u`
drawn from `[-0.08, 0.08]`, clamped into `[0.01, 0.99]`. -/
def simulatedCurrent (entry u : ℚ) : ℚ :=
  max (1/100) (min (99/100) (entry + u))

/-- One per-position step of `DryRunTrader.maintain_positions`
(dry_run_trader.py lines 418–454): close the position at the observed
`current` price exactly when `change ≥ tp` or `change ≤ −sl`, with
`tp`/`sl` the configured take-profit and stop-loss thresholds. -/
def tickStep (tp sl current : ℚ) (pos : Position) (s : PState) : PState :=
  let change := tickChange pos.side pos.entry_price current
  if change ≥ tp ∨ change ≤ -sl then (closePosition pos.id current s).2
  else s

end Agents

namespace Agents

/-- `str.upper()` fixes the literal `"BUY"`. -/
theorem pyUpper_BUY : pyUpper "BUY" = "BUY" := by decide

/-- `str.upper()` fixes the literal `"SELL"`. -/
theorem pyUpper_SELL : pyUpper "SELL" = "SELL" := by decide

/-- `apply_trade` conserves `balance + Σ notional`: it either leaves the state
unchanged or debits exactly the notional it books on the new position. -/
theorem applyTrade_conserve (ts : String) (t : Trade) (s : PState) :
    (applyTrade ts t s).current_balance + openNotional (applyTrade ts t s)
      = s.current_balance + openNotional s := by
  by_cases h1 : t.size ≤ 0
  · simp [applyTrade, h1]
  · by_cases h2 : pyUpper t.side = "BUY"
    · simp [applyTrade, openNotional, h1, h2]
    · by_cases h3 : pyUpper t.side = "SELL"
      · simp [applyTrade, openNotional, h1, h2, h3]
      · simp [applyTrade, h1, h2, h3]

/-- `close_position` finds nothing when no open position bears the id. -/
theorem closeFirst_eq_none (pid : String) (x : ℚ) (l : List Position)
    (h : ∀ p ∈ l, p.id ≠ pid) : closeFirst pid x l = none := by
  induction l with
  | nil => rfl
  | cons p rest ih =>
    have hp : p.id ≠ pid := h p (by simp)
    have hr := ih (fun q hq => h q (by simp [hq]))
    simp [closeFirst, hp, hr]

/-- Conversely, a failed scan means no open position bears the id. -/
theorem mem_of_closeFirst_none (pid : String) (x : ℚ) (l : List Position)
    (h : closeFirst pid x l = none) : ∀ p ∈ l, p.id ≠ pid := by
  induction l with
  | nil => simp
  | cons p rest ih =>
    unfold closeFirst at h
    by_cases hp : p.id = pid
    · simp [hp] at h
    · cases hc : closeFirst pid x rest with
      | none =>
        intro q hq
        rcases List.mem_cons.mp hq with rfl | hq2
        · exact hp
        · exact ih hc q hq2
      | some pr =>
        rw [if_neg hp, hc] at h
        simp at h

/-- A successful scan removes exactly one occurrence of the id. -/
theorem closeFirst_count (pid : String) (x : ℚ) (l : List Position)
    (r : CloseResult) (rest : List Position)
    (h : closeFirst pid x l = some (r, rest)) :
    ((rest.map Position.id).count pid) + 1 = (l.map Position.id).count pid := by
  induction l generalizing r rest with
  | nil => simp [closeFirst] at h
  | cons p tl ih =>
    unfold closeFirst at h
    by_cases hp : p.id = pid
    · rw [if_pos hp] at h
      simp only [Option.some.injEq, Prod.mk.injEq] at h
      obtain ⟨-, hrest⟩ := h
      subst hrest
      simp [hp, List.count_cons]
    · rw [if_neg hp] at h
      cases hc : closeFirst pid x tl with
      | none => rw [hc] at h; simp at h
      | some pr =>
        obtain ⟨r2, rest2⟩ := pr
        rw [hc] at h
        simp only [Option.some.injEq, Prod.mk.injEq] at h
        obtain ⟨hr2, hrest⟩ := h
        subst hr2
        subst hrest
        have hcount := ih r2 rest2 hc
        simp [List.count_cons, hp]
        omega

/-- A successful scan takes exactly the reported notional out of the open
notional sum. -/
theorem closeFirst_sum (pid : String) (x : ℚ) (l : List Position)
    (r : CloseResult) (rest : List Position)
    (h : closeFirst pid x l = some (r, rest)) :
    (l.map Position.notional).sum = (rest.map Position.notional).sum + r.notional := by
  induction l generalizing r rest with
  | nil => simp [closeFirst] at h
  | cons p tl ih =>
    unfold closeFirst at h
    by_cases hp : p.id = pid
    · rw [if_pos hp] at h
      simp only [Option.some.injEq, Prod.mk.injEq] at h
      obtain ⟨hr, hrest⟩ := h
      subst hrest
      rw [← hr]
      simp
      ring
    · rw [if_neg hp] at h
      cases hc : closeFirst pid x tl with
      | none => rw [hc] at h; simp at h
      | some pr =>
        obtain ⟨r2, rest2⟩ := pr
        rw [hc] at h
        simp only [Option.some.injEq, Prod.mk.injEq] at h
        obtain ⟨hr2, hrest⟩ := h
        subst hr2
        subst hrest
        have hsum := ih r2 rest2 hc
        simp only [List.map_cons, List.sum_cons, hsum]
        ring

/-- One operation step preserves `balance + Σ open notional − Σ realized`. -/
theorem stepOp_inv (p : PState × ℚ) (op : Op) :
    (stepOp p op).1.current_balance + openNotional (stepOp p op).1 - (stepOp p op).2
      = p.1.current_balance + openNotional p.1 - p.2 := by
  obtain ⟨s, r⟩ := p
  cases op with
  | openTrade ts t =>
    have := applyTrade_conserve ts t s
    simp only [stepOp]
    linarith
  | close pid x =>
    simp only [stepOp, closePosition]
    cases hf : closeFirst pid x s.positions with
    | none => simp
    | some pr =>
      obtain ⟨r0, rest⟩ := pr
      have hsum := closeFirst_sum pid x s.positions r0 rest hf
      simp only [openNotional] at *
      linarith

/-- The invariant of `stepOp_inv`, pushed through a whole operation list. -/
theorem runOps_inv (ops : List Op) : ∀ (s : PState) (r : ℚ),
    (ops.foldl stepOp (s, r)).1.current_balance
        + openNotional (ops.foldl stepOp (s, r)).1 - (ops.foldl stepOp (s, r)).2
      = s.current_balance + openNotional s - r := by
  induction ops with
  | nil => intro s r; simp
  | cons op tl ih =>
    intro s r
    rw [List.foldl_cons]
    rcases hst : stepOp (s, r) op with ⟨s1, r1⟩
    have h1 := stepOp_inv (s, r) op
    rw [hst] at h1
    rw [ih s1 r1]
    exact h1

/-- C1.  Conservation: starting from an initial balance with no open
positions, after any sequence of `apply_trade` opens and `close_position`
closes, the current balance plus the summed notional of the open positions
equals the initial balance plus the summed `realized_pnl` of the closes that
found their position.  Every observation point is covered because the
operation list is arbitrary, hence so is every prefix. -/
theorem conservation_balance (b0 : ℚ) (ops : List Op) :
    (runOps (initState b0) ops).1.current_balance
        + openNotional (runOps (initState b0) ops).1
      = b0 + (runOps (initState b0) ops).2 := by
  have h := runOps_inv ops (initState b0) 0
  simp only [initState, openNotional, List.map_nil, List.sum_nil] at h
  unfold runOps openNotional
  simp only [initState]
  linarith

/-- C10.  `mark_to_market` with no observed price (`current_price = None`)
returns a summary whose position count is the number of open positions,
whose balance is the current balance and whose `unrealized_pnl` is exactly
0.0 even when positions are open; the method only reads the state (it is a
pure function of it), so balance and positions are unchanged. -/
theorem mark_to_market_no_price (s : PState) :
    markToMarket none s =
      { positions := s.positions.length, unrealized_pnl := 0,
        balance := s.current_balance } := rfl

/-- C7.  A trade intent whose size is not positive, or whose upper-cased side
is neither BUY nor SELL, has zero effect: `apply_trade` returns the state
unchanged, and the paper `_execute_trade` reports a zero-effect fill at the
base price while touching no portfolio state; both paths are total, so no
exception reaches the caller. -/
theorem invalid_intent_noop (cfg : PaperCfg) (ts : String) (t : Trade)
    (fill_fraction price_change : ℚ) (s : PState)
    (h : t.size ≤ 0 ∨ (pyUpper t.side ≠ "BUY" ∧ pyUpper t.side ≠ "SELL")) :
    applyTrade ts t s = s ∧
    paperExecute cfg ts t fill_fraction price_change s =
      (ExecOutcome.rejected t.price t.price 0, s) := by
  constructor
  · rcases h with h | ⟨hb, hs⟩
    · simp [applyTrade, h]
    · by_cases hsz : t.size ≤ 0
      · simp [applyTrade, hsz]
      · simp [applyTrade, hsz, hb, hs]
  · have hguard : t.size ≤ 0 ∨ t.notional ≤ 0 ∨
        (pyUpper t.side ≠ "BUY" ∧ pyUpper t.side ≠ "SELL") := by
      rcases h with h | h
      · exact Or.inl h
      · exact Or.inr (Or.inr h)
    simp only [paperExecute]
    rw [if_pos hguard]

/-- C7 witness: a concrete `hold`-side intent is rejected by both paths. -/
theorem invalid_intent_noop_witness :
    applyTrade "T" { side := "hold", price := 1/2, size := 1/10, notional := 5 }
        (initState 100) = initState 100 ∧
    paperExecute ⟨10, 20⟩ "T" { side := "hold", price := 1/2, size := 1/10, notional := 5 }
        1 0 (initState 100) = (ExecOutcome.rejected (1/2) (1/2) 0, initState 100) :=
  invalid_intent_noop ⟨10, 20⟩ "T"
    { side := "hold", price := 1/2, size := 1/10, notional := 5 } 1 0 (initState 100)
    (Or.inr ⟨by decide, by decide⟩)

/-- C2 counterexample: the round trip of the claim — open BUY at price 0.40
with size 0.2 from balance 100, close at 0.60 — leaves the balance at 104,
not 84: `close_position` credits the notional back along with the PnL. -/
theorem round_trip_balance_ne_84 :
    ((closePosition ("pos_" ++ "T") (3/5)
        (applyTrade "T" { side := "BUY", price := 2/5, size := 1/5 }
          (initState 100))).2).current_balance ≠ 84 := by
  norm_num [applyTrade, closePosition, closeFirst, closeChange, pyUpper_BUY,
    initState, min_def, max_def]

/-- C2 (amended).  Round trip from balance 100: opening BUY at price 0.40
with size fraction 0.2 books notional 20 at entry price 0.40 and leaves
balance 80; closing at exit price 0.60 realizes `20 × (0.60 − 0.40) = 4`,
leaves zero open positions, and makes the balance `80 + 20 + 4 = 104`
(the reserved notional is returned together with the PnL), not 84. -/
theorem round_trip_values :
    (applyTrade "T" { side := "BUY", price := 2/5, size := 1/5 }
        (initState 100)).current_balance = 80 ∧
    (applyTrade "T" { side := "BUY", price := 2/5, size := 1/5 }
        (initState 100)).positions.map Position.notional = [20] ∧
    (applyTrade "T" { side := "BUY", price := 2/5, size := 1/5 }
        (initState 100)).positions.map Position.entry_price = [2/5] ∧
    ((closePosition ("pos_" ++ "T") (3/5)
        (applyTrade "T" { side := "BUY", price := 2/5, size := 1/5 }
          (initState 100))).1).map CloseResult.realized_pnl = some 4 ∧
    ((closePosition ("pos_" ++ "T") (3/5)
        (applyTrade "T" { side := "BUY", price := 2/5, size := 1/5 }
          (initState 100))).2).positions = [] ∧
    ((closePosition ("pos_" ++ "T") (3/5)
        (applyTrade "T" { side := "BUY", price := 2/5, size := 1/5 }
          (initState 100))).2).current_balance = 104 := by
  refine ⟨?_, ?_, ?_, ?_, ?_, ?_⟩ <;>
    norm_num [applyTrade, closePosition, closeFirst, closeChange, pyUpper_BUY,
      initState, min_def, max_def]

/-- C3 counterexample: from a reachable state — two BUY opens in the same
strftime second share the id `pos_T` — closing that id twice changes the
balance twice: the second call closes the twin position. -/
theorem double_close_balance_changes_twice :
    ((closePosition ("pos_" ++ "T") (1/2)
        ((closePosition ("pos_" ++ "T") (1/2)
            (applyTrade "T" { side := "BUY", price := 1/2, size := 1/5 }
              (applyTrade "T" { side := "BUY", price := 1/2, size := 1/5 }
                (initState 100)))).2)).2).current_balance
      ≠ ((closePosition ("pos_" ++ "T") (1/2)
            (applyTrade "T" { side := "BUY", price := 1/2, size := 1/5 }
              (applyTrade "T" { side := "BUY", price := 1/2, size := 1/5 }
                (initState 100)))).2).current_balance := by
  norm_num [applyTrade, closePosition, closeFirst, closeChange, pyUpper_BUY,
    initState, min_def, max_def]

/-- C3 (amended).  In any portfolio state where at most one open position
bears the given id — in particular whenever ids are unique — a second
`close_position` with the same id is a no-op: it returns `None` and leaves
balance and positions exactly as the first call left them, so the balance
changes only once.  (The unrestricted claim fails: a reachable state can
hold two positions with the same id, see the counterexample.) -/
theorem close_idempotent (pid : String) (x y : ℚ) (s : PState)
    (h : (s.positions.map Position.id).count pid ≤ 1) :
    closePosition pid y (closePosition pid x s).2
      = (none, (closePosition pid x s).2) := by
  rcases hf : closeFirst pid x s.positions with _ | ⟨r0, rest⟩
  · have hnone : closePosition pid x s = (none, s) := by simp [closePosition, hf]
    rw [hnone]
    have hmem := mem_of_closeFirst_none pid x s.positions hf
    simp [closePosition, closeFirst_eq_none pid y s.positions hmem]
  · have hsome : closePosition pid x s =
        (some r0, { current_balance := s.current_balance + r0.notional + r0.realized_pnl,
                    positions := rest }) := by
      simp [closePosition, hf]
    rw [hsome]
    have hcount := closeFirst_count pid x s.positions r0 rest hf
    have hzero : (rest.map Position.id).count pid = 0 := by omega
    have hnotmem : pid ∉ rest.map Position.id := List.count_eq_zero.mp hzero
    have hmem : ∀ p ∈ rest, p.id ≠ pid := fun p hp hcontra =>
      hnotmem (List.mem_map.mpr ⟨p, hp, hcontra⟩)
    simp [closePosition, closeFirst_eq_none pid y rest hmem]

/-- C3 witness: with a single open position bearing `pos_T`, the second
close of `pos_T` returns `None` and changes nothing. -/
theorem close_idempotent_witness :
    closePosition "pos_T" (1/2)
        (closePosition "pos_T" (1/2)
          ⟨80, [⟨"pos_T", "E", "Q", "BUY", 1/2, 1/5, 20, 40⟩]⟩).2
      = (none, (closePosition "pos_T" (1/2)
          ⟨80, [⟨"pos_T", "E", "Q", "BUY", 1/2, 1/5, 20, 40⟩]⟩).2) :=
  close_idempotent "pos_T" (1/2) (1/2)
    ⟨80, [⟨"pos_T", "E", "Q", "BUY", 1/2, 1/5, 20, 40⟩]⟩ (by decide)

/-- C4.  The position id is `pos_` followed by a second-resolution
`strftime` timestamp, so two valid trades applied in the same second
receive identical ids: the resulting id list has a duplicate, refuting
uniqueness.  (The claim — ids unique even at equal timestamps — states the
documented intent; the id scheme of the code cannot deliver it.) -/
theorem duplicate_ids_same_second :
    ((applyTrade "20240101_120000" { side := "BUY", price := 1/2, size := 1/5 }
        (applyTrade "20240101_120000" { side := "BUY", price := 1/2, size := 1/5 }
          (initState 100))).positions.map Position.id)
      = ["pos_20240101_120000", "pos_20240101_120000"] ∧
    ¬ ((applyTrade "20240101_120000" { side := "BUY", price := 1/2, size := 1/5 }
        (applyTrade "20240101_120000" { side := "BUY", price := 1/2, size := 1/5 }
          (initState 100))).positions.map Position.id).Nodup := by
  have h1 : ((applyTrade "20240101_120000" { side := "BUY", price := 1/2, size := 1/5 }
      (applyTrade "20240101_120000" { side := "BUY", price := 1/2, size := 1/5 }
        (initState 100))).positions.map Position.id)
      = ["pos_20240101_120000", "pos_20240101_120000"] := by
    norm_num [applyTrade, pyUpper_BUY, initState, min_def, max_def]
    decide
  refine ⟨h1, ?_⟩
  rw [h1]
  decide

/-- C9 counterexample: the claim fails on two branches.  With the persisted
document absent, `load` keeps the default-initialized state but performs no
save (nothing is "immediately persisted").  With a document whose balance
converts but whose positions entry is malformed — e.g.
`{"current_balance": 2.5, "positions": null}` against default 100 — the
balance is overwritten to 2.5 before the exception fires, and that corrupt
balance, not the configured default, is what gets persisted. -/
theorem load_absent_or_corrupt :
    (load none (initState 100)).1 = initState 100 ∧
    (load none (initState 100)).2 ≠ true ∧
    (load (some (LoadDoc.badPositions (5/2))) (initState 100)).1.current_balance ≠ 100 ∧
    (load (some (LoadDoc.badPositions (5/2))) (initState 100)).2 = true :=
  ⟨rfl, by decide, by norm_num [load, initState], rfl⟩

/-- C9 (amended).  `load` on an absent document keeps the
default-initialized state and does not persist.  On a document that fails to
parse, or whose balance entry fails to convert, it keeps the default state
and immediately persists it.  On a document whose balance converts but whose
positions entry is malformed, it keeps — and persists — the document's
balance with the empty default position list, not the configured default
balance.  Loading back the document saved from the default state yields the
default state, and no malformed case is fatal. -/
theorem load_recovery (b bal : ℚ) (s : PState) :
    load none (initState b) = (initState b, false) ∧
    load (some LoadDoc.unparseable) (initState b) = (initState b, true) ∧
    load (some LoadDoc.badBalance) (initState b) = (initState b, true) ∧
    load (some (LoadDoc.badPositions bal)) (initState b)
      = ({ current_balance := bal, positions := [] }, true) ∧
    load (some (LoadDoc.valid (save (initState b)).current_balance
        (save (initState b)).positions)) s = (initState b, false) :=
  ⟨rfl, rfl, rfl, rfl, rfl⟩

/-- C5 counterexample: a paper open with size fraction 0.2 and fill fraction
0.5 (< 1) from balance 100 (zero slippage and commission) debits 10 — the
executed notional — whereas the intended notional `clamp(0.2) × 100` is 20. -/
theorem paper_open_debit_ne_intended :
    (100 : ℚ) - (paperOpenState ⟨0, 0⟩ "T"
        { side := "BUY", price := 1/2, size := 1/5, notional := 20 } (1/2)
        (initState 100)).current_balance = 10 ∧
    ¬ ((100 : ℚ) - (paperOpenState ⟨0, 0⟩ "T"
        { side := "BUY", price := 1/2, size := 1/5, notional := 20 } (1/2)
        (initState 100)).current_balance
      = max 0 (min 1 (1/5 : ℚ)) * 100) := by
  constructor <;>
    norm_num [paperOpenState, execPrice, applyTrade, pyUpper_BUY, initState,
      min_def, max_def]

/-- C5 (amended).  For a valid intent, the amount the paper-mode open debits
from the portfolio balance is the executed notional
`size_fraction × fill_fraction × pre-trade balance` (the scaled fraction,
when it lies in [0, 1], escapes the clamp), not the full intended notional:
the unexecuted part is never debited at all. -/
theorem paper_open_debits_executed (cfg : PaperCfg) (ts : String) (t : Trade)
    (fill_fraction : ℚ) (s : PState)
    (hside : pyUpper t.side = "BUY" ∨ pyUpper t.side = "SELL")
    (h0 : 0 ≤ t.size * fill_fraction) (h1 : t.size * fill_fraction ≤ 1) :
    s.current_balance - (paperOpenState cfg ts t fill_fraction s).current_balance
      = t.size * fill_fraction * s.current_balance := by
  unfold paperOpenState applyTrade
  by_cases hz : t.size * fill_fraction ≤ 0
  · have hzz : t.size * fill_fraction = 0 := le_antisymm hz h0
    simp [hz, hzz]
  · have hclamp : max 0 (min 1 (t.size * fill_fraction)) = t.size * fill_fraction := by
      rw [min_eq_right h1, max_eq_right (le_trans h0 (le_of_eq rfl))]
    rcases hside with hb | hs
    · simp [hz, hb, hclamp]
    · simp [hz, hs, hclamp]

/-- C5 witness: the executed-notional debit at size 0.2, fill 0.5,
balance 100. -/
theorem paper_open_debits_executed_witness :
    (initState 100).current_balance - (paperOpenState ⟨0, 0⟩ "T"
        { side := "BUY", price := 1/2, size := 1/5, notional := 20 } (1/2)
        (initState 100)).current_balance
      = (1/5 : ℚ) * (1/2) * (initState 100).current_balance :=
  paper_open_debits_executed ⟨0, 0⟩ "T"
    { side := "BUY", price := 1/2, size := 1/5, notional := 20 } (1/2)
    (initState 100) (Or.inl (by decide)) (by norm_num) (by norm_num)

/-- The two sources compute the same directional change formula. -/
theorem tickChange_eq_closeChange : tickChange = closeChange := rfl

/-- Scanning for the id of a position that sits after a prefix free of that
id finds exactly that position and removes it from the list. -/
theorem closeFirst_of_mem (x : ℚ) (pre post : List Position) (pos : Position)
    (h : ∀ p ∈ pre, p.id ≠ pos.id) :
    closeFirst pos.id x (pre ++ pos :: post) =
      some ({ position_id := pos.id, side := pos.side,
              entry_price := pos.entry_price, exit_price := x,
              notional := pos.notional,
              realized_pnl := pos.notional * closeChange pos.side pos.entry_price x },
            pre ++ post) := by
  induction pre with
  | nil => simp [closeFirst]
  | cons p tl ih =>
    have hp : p.id ≠ pos.id := h p (by simp)
    have htl := ih (fun q hq => h q (by simp [hq]))
    simp [closeFirst, hp, htl]

/-- C6 counterexample: in a reachable twin-id state (two same-second opens,
entries 0.50 and 0.90), the tick on the second twin fires its stop-loss at
observed price 0.84 but `close_position` resolves the shared id to the first
twin — the ticked position itself stays open, refuting the unrestricted
"closes the position exactly when triggered". -/
theorem tick_twin_closes_wrong_position :
    tickChange "BUY" (9/10) (21/25) ≤ -(1/20 : ℚ) ∧
    (tickStep (1/10) (1/20) (21/25)
        ⟨"pos_T", "E2", "Q2", "BUY", 9/10, 1/5, 16, 160/9⟩
        ⟨64, [⟨"pos_T", "E1", "Q1", "BUY", 1/2, 1/5, 20, 40⟩,
              ⟨"pos_T", "E2", "Q2", "BUY", 9/10, 1/5, 16, 160/9⟩]⟩).positions
      = [⟨"pos_T", "E2", "Q2", "BUY", 9/10, 1/5, 16, 160/9⟩] := by
  constructor
  · norm_num [tickChange]
  · norm_num [tickStep, tickChange, closePosition, closeFirst, closeChange]

/-- C6 (amended).  The tick of `maintain_positions` computes `change = current − entry`
for BUY and `change = (1 − current) − (1 − entry)` for SELL, and closes the
position exactly when `change ≥ take_profit` or `change ≤ −stop_loss`: on a
trigger the position leaves the list and the balance is credited its
notional plus `notional × change` (the realized PnL of `close_position` at
the observed price); otherwise the state is untouched.  The position is
assumed to be the first in the list bearing its id — always true when ids
are unique, and forced on us by the id-based lookup (see the
counterexample). -/
theorem tick_trigger (tp sl current b : ℚ) (pre post : List Position)
    (pos : Position) (hpre : ∀ p ∈ pre, p.id ≠ pos.id) :
    (pos.side = "BUY" →
      tickChange pos.side pos.entry_price current = current - pos.entry_price) ∧
    (pos.side = "SELL" →
      tickChange pos.side pos.entry_price current
        = (1 - current) - (1 - pos.entry_price)) ∧
    (tickChange pos.side pos.entry_price current ≥ tp ∨
        tickChange pos.side pos.entry_price current ≤ -sl →
      tickStep tp sl current pos ⟨b, pre ++ pos :: post⟩
        = ⟨b + pos.notional
              + pos.notional * tickChange pos.side pos.entry_price current,
           pre ++ post⟩) ∧
    (¬ (tickChange pos.side pos.entry_price current ≥ tp ∨
        tickChange pos.side pos.entry_price current ≤ -sl) →
      tickStep tp sl current pos ⟨b, pre ++ pos :: post⟩
        = ⟨b, pre ++ pos :: post⟩) := by
  refine ⟨?_, ?_, ?_, ?_⟩
  · intro hb; simp [tickChange, hb]
  · intro hs
    simp only [tickChange, hs]
    simp
  · intro htrig
    have hcf := closeFirst_of_mem current pre post pos hpre
    simp only [tickStep]
    rw [if_pos htrig]
    simp [closePosition, hcf, tickChange_eq_closeChange]
  · intro hno
    simp only [tickStep]
    rw [if_neg hno]

/-- C6 witness: a BUY position opened at 0.50 with notional 10 under
stop-loss 0.05 closes on observed price 0.44 (`change = −0.06 ≤ −0.05`) and
realizes `10 × (−0.06)`. -/
theorem tick_trigger_witness :
    tickStep (1/10) (1/20) (11/25)
        ⟨"pos_T", "E", "Q", "BUY", 1/2, 1/5, 10, 20⟩
        ⟨90, [] ++ ⟨"pos_T", "E", "Q", "BUY", 1/2, 1/5, 10, 20⟩ :: []⟩
      = ⟨90 + 10 + 10 * tickChange "BUY" (1/2) (11/25), [] ++ []⟩ :=
  (tick_trigger (1/10) (1/20) (11/25) 90 [] []
      ⟨"pos_T", "E", "Q", "BUY", 1/2, 1/5, 10, 20⟩ (by simp)).2.2.1
    (Or.inr (by norm_num [tickChange]))

/-- C8 counterexample: `apply_trade` stores the caller-supplied price
verbatim, so a BUY at price 1.5 books an entry price outside [0.01, 0.99]. -/
theorem entry_price_outside_bounds :
    ((applyTrade "T" { side := "BUY", price := 3/2, size := 1/5 }
        (initState 100)).positions.map Position.entry_price) = [3/2] ∧
    ¬ ((3 : ℚ)/2 ≤ 99/100) := by
  constructor
  · norm_num [applyTrade, pyUpper_BUY, initState, min_def, max_def]
  · norm_num

/-- C8 (amended).  In the paper execution path the pseudo-exit price is
clamped into [0.01, 0.99] on both sides, while the slipped entry price is
only capped at 0.99 for BUY and only floored at 0.01 for SELL;
`PortfolioManager` itself stores entry and exit prices verbatim, so with
extreme caller-supplied prices the claimed two-sided bound fails (see the
counterexample). -/
theorem paper_exec_price_bounds (cfg : PaperCfg) (ts : String) (t : Trade)
    (fill_fraction price_change : ℚ) (s : PState) (r : ExecResult) (s2 : PState)
    (h : paperExecute cfg ts t fill_fraction price_change s
        = (ExecOutcome.executed r, s2)) :
    (1/100 ≤ r.exit_price ∧ r.exit_price ≤ 99/100) ∧
    (pyUpper t.side = "BUY" → r.entry_price ≤ 99/100) ∧
    (pyUpper t.side = "SELL" → 1/100 ≤ r.entry_price) := by
  by_cases hg : t.size ≤ 0 ∨ t.notional ≤ 0 ∨
      (pyUpper t.side ≠ "BUY" ∧ pyUpper t.side ≠ "SELL")
  · simp only [paperExecute] at h
    rw [if_pos hg] at h
    simp at h
  · simp only [paperExecute] at h
    rw [if_neg hg] at h
    simp only [Prod.mk.injEq, ExecOutcome.executed.injEq] at h
    obtain ⟨hr, -⟩ := h
    subst hr
    refine ⟨⟨le_max_left _ _, max_le (by norm_num) (min_le_left _ _)⟩, ?_, ?_⟩
    · intro hb
      simp only [execPrice, hb, if_pos rfl]
      exact min_le_left _ _
    · intro hs
      have : ¬ ("SELL" = "BUY") := by decide
      simp only [execPrice, hs, if_neg this]
      exact le_max_left _ _

/-- C8 witness: a concrete zero-cost BUY execution whose slipped entry and
clamped exit both satisfy the proved bounds. -/
theorem paper_exec_price_bounds_witness :
    ((1/100 : ℚ) ≤ (1/2 : ℚ) ∧ (1/2 : ℚ) ≤ 99/100) ∧
    (pyUpper "BUY" = "BUY" → (1/2 : ℚ) ≤ 99/100) ∧
    (pyUpper "BUY" = "SELL" → (1/100 : ℚ) ≤ 1/2) :=
  paper_exec_price_bounds ⟨0, 0⟩ "T"
    { side := "BUY", price := 1/2, size := 1/5, notional := 20 } 1 0
    (initState 100) ⟨"BUY", 1/2, 1/2, 1/5, 0, 0, 0, 1⟩ ⟨100, []⟩
    (by norm_num [paperExecute, paperOpenState, applyTrade, execPrice,
      closePosition, closeFirst, closeChange, pyUpper_BUY, initState,
      min_def, max_def])

end Agents
